import Mathlib

/-!
Verification of the WebSocket-to-TCP proxy core of novnc-ocloudview.

The development shallowly embeds the `WebsockifyProxy` class
(connection registry, admission control, pre-dial message buffering,
retry dial engine, heartbeat monitor, shutdown) and the
`verifyAndGetVNCInfo` resolver.  JavaScript `Map`s are embedded as
association lists with unique keys, `Set`s as duplicate-free lists,
and the event-driven handlers as explicit state-passing functions.
-/

namespace NovncProxy

/-! ## JS `Map` and `Set` embedding -/

/-- Lookup in a JS `Map` (first binding for the key). -/
def mapGet {α : Type} (m : List (String × α)) (k : String) : Option α :=
  match m with
  | [] => none
  | (k₁, v) :: rest => if k₁ = k then some v else mapGet rest k

/-- `Map.set`: replace the existing binding in place, else append. -/
def mapSet {α : Type} (m : List (String × α)) (k : String) (v : α) :
    List (String × α) :=
  match m with
  | [] => [(k, v)]
  | (k₁, v₁) :: rest =>
    if k₁ = k then (k₁, v) :: rest else (k₁, v₁) :: mapSet rest k v

/-- `Map.delete`: remove the binding for the key. -/
def mapDelete {α : Type} (m : List (String × α)) (k : String) :
    List (String × α) :=
  m.filter (fun p => p.1 ≠ k)

/-- `Map.has`. -/
def mapHas {α : Type} (m : List (String × α)) (k : String) : Bool :=
  (mapGet m k).isSome

/-- `Set.delete` on a JS `Set` of strings. -/
def setDelete (s : List String) (x : String) : List String :=
  s.filter (fun y => y ≠ x)

/-- `Set.add` on a JS `Set` of strings (no duplicate insertion). -/
def setAdd (s : List String) (x : String) : List String :=
  if x ∈ s then s else s ++ [x]

/-! ## Connection registry (`connections` / `vmConnections`) -/

/-- One entry of the `connections` map: the per-connection record
stored by `handleConnection` (socket references are embedded as the
`wsOpen` readiness bit used by the close handlers). -/
structure ConnRec where
  vmId : String
  host : String
  port : Nat
  startTime : Nat
  lastActivity : Nat
  clientAddr : String
  wsOpen : Bool
  deriving Repr, DecidableEq

/-- The two registry maps of `WebsockifyProxy`. -/
structure Registry where
  connections : List (String × ConnRec)
  vmConnections : List (String × List String)
  deriving Repr, DecidableEq

/-- `cleanupConnection(connectionId, vmId)`: delete the record, delete
the id from the VM index set, and drop the VM key when its set
empties. -/
def cleanupConnection (connectionId vmId : String) (r : Registry) :
    Registry :=
  let conns := mapDelete r.connections connectionId
  match mapGet r.vmConnections vmId with
  | none => { connections := conns, vmConnections := r.vmConnections }
  | some s =>
    let s₂ := setDelete s connectionId
    if s₂.length = 0 then
      { connections := conns, vmConnections := mapDelete r.vmConnections vmId }
    else
      { connections := conns, vmConnections := mapSet r.vmConnections vmId s₂ }

/-- No VM key of the index maps to an empty connection-id set. -/
def NoEmptyVmEntry (r : Registry) : Prop :=
  ∀ v s, mapGet r.vmConnections v = some s → s ≠ []

/-! ## Socket-side actions emitted by handlers -/

/-- Observable socket effects of the proxy handlers. -/
inductive SockAction where
  | tcpEnd : SockAction
  | tcpWrite (bytes : List Nat) : SockAction
  | wsSendText (s : String) : SockAction
  | wsCloseCode (code : Nat) (reason : String) : SockAction
  | wsTerminate : SockAction
  | wsPing : SockAction
  deriving Repr, DecidableEq

/-- The `ws.on('close')` handler installed by `setupProxy`: half-close
the TCP side (`target.end()`) and release the record. -/
def onWsClose (connectionId vmId : String) (r : Registry) :
    List SockAction × Registry :=
  ([SockAction.tcpEnd], cleanupConnection connectionId vmId r)

/-- The `target.on('close')` handler installed by `setupProxy`: close
the WebSocket with code 1000 when it is open, and release the record. -/
def onTcpClose (connectionId vmId : String) (wsOpen : Bool)
    (r : Registry) : List SockAction × Registry :=
  ((if wsOpen then [SockAction.wsCloseCode 1000 "Server connection closed"]
    else []),
   cleanupConnection connectionId vmId r)

/-! ## Full proxy state and `shutdown` -/

/-- Proxy-level state: the registry, the heartbeat timer handle and
the monotone connection-id counter. -/
structure ProxyState where
  registry : Registry
  heartbeatInterval : Option Nat
  connectionIdCounter : Nat
  deriving Repr, DecidableEq

/-- `stopHeartbeat()`: clear the timer when one is set. -/
def stopHeartbeat (p : ProxyState) : ProxyState :=
  match p.heartbeatInterval with
  | some _ => { p with heartbeatInterval := none }
  | none => p

/-- The per-record effects of the `shutdown` loop: close the WebSocket
with 1001 when open, then `target.end()`. -/
def shutdownConnActions (c : ConnRec) : List SockAction :=
  (if c.wsOpen then [SockAction.wsCloseCode 1001 "Server shutting down"]
   else []) ++ [SockAction.tcpEnd]

/-- `shutdown()`: stop the heartbeat, emit the close actions for every
registered connection, then clear both maps. -/
def shutdown (p : ProxyState) : List SockAction × ProxyState :=
  let p₁ := stopHeartbeat p
  let actions := p₁.registry.connections.flatMap
      (fun e => shutdownConnActions e.2)
  (actions,
   { p₁ with registry := { connections := [], vmConnections := [] } })

/-! ## Constructor option defaults -/

/-- The numeric `options.x || default` idiom of the constructor
(`0` is falsy in JavaScript, so it also selects the default). -/
def orDefault (o : Option Nat) (d : Nat) : Nat :=
  match o with
  | some v => if v = 0 then d else v
  | none => d

/-- The options record passed to the `WebsockifyProxy` constructor
(only the fields the verified claims touch). -/
structure ProxyOptions where
  heartbeatTimeout : Option Nat
  bufferMaxSize : Option Nat
  maxRetries : Option Nat
  retryDelay : Option Nat
  retryBackoffMultiplier : Option Nat
  maxConnections : Option Nat
  maxConnectionsPerVM : Option Nat

/-- `options.bufferMaxSize || 1024 * 1024`. -/
def configBufferMaxSize (o : ProxyOptions) : Nat :=
  orDefault o.bufferMaxSize (1024 * 1024)

/-- `options.heartbeatTimeout || 30000`. -/
def configHeartbeatTimeout (o : ProxyOptions) : Nat :=
  orDefault o.heartbeatTimeout 30000

/-- `options.maxRetries !== undefined ? options.maxRetries : 3`. -/
def configMaxRetries (o : ProxyOptions) : Nat :=
  o.maxRetries.getD 3

/-- `options.retryDelay || 1000`. -/
def configRetryDelay (o : ProxyOptions) : Nat :=
  orDefault o.retryDelay 1000

/-- `options.retryBackoffMultiplier || 2`. -/
def configRetryBackoffMultiplier (o : ProxyOptions) : Nat :=
  orDefault o.retryBackoffMultiplier 2

/-! ## Retry dial engine (`createTargetConnection`) -/

/-- Retry parameters of the dial engine. -/
structure DialConfig where
  maxRetries : Nat
  retryDelay : Nat
  retryBackoffMultiplier : Nat
  deriving Repr, DecidableEq

/-- Result of a dial run: the final outcome, the back-off sleeps
performed between attempts in order, and how many TCP connection
attempts were made. -/
structure DialRun where
  result : Except String Nat
  sleeps : List Nat
  attempts : Nat
  deriving Repr

/-- The retry loop body.  `attempt` is the 1-based attempt number,
`remaining` the number of attempts still allowed after this one.
`outcome k` is the result of the k-th `_attemptConnection` (a socket
handle or the connection error). -/
def dialGo (outcome : Nat → Except String Nat) (rd mult : Nat) :
    Nat → Nat → DialRun
  | attempt, 0 =>
    match outcome attempt with
    | Except.ok s => ⟨Except.ok s, [], 1⟩
    | Except.error e => ⟨Except.error e, [], 1⟩
  | attempt, r + 1 =>
    match outcome attempt with
    | Except.ok s => ⟨Except.ok s, [], 1⟩
    | Except.error _ =>
      let d := rd * mult ^ (attempt - 1)
      let rest := dialGo outcome rd mult (attempt + 1) r
      ⟨rest.result, d :: rest.sleeps, rest.attempts + 1⟩

/-- `createTargetConnection`: up to `maxRetries + 1` attempts starting
at attempt 1; the error of the last attempt is propagated on
exhaustion. -/
def createTargetConnection (cfg : DialConfig)
    (outcome : Nat → Except String Nat) : DialRun :=
  dialGo outcome cfg.retryDelay cfg.retryBackoffMultiplier 1 cfg.maxRetries

/-! ## Splice engine: frames, control messages, pre-dial buffering -/

/-- A client WebSocket frame as seen by the `'message'` handlers: the
runtime type of `data` (a byte buffer, or a JavaScript string). -/
inductive Frame where
  | binary (bytes : List Nat)
  | text (s : String)
  deriving Repr, DecidableEq

/-- `Buffer.from(string)`: the UTF-8 bytes of the string. -/
def strBytes (s : String) : List Nat :=
  s.toUTF8.toList.map (fun b => b.toNat)

/-- `Buffer.from(data)` on a frame payload. -/
def rawBytes : Frame → List Nat
  | Frame.binary b => b
  | Frame.text s => strBytes s

/-- A parsed JSON control message; the handler dispatches on its
`type` field only. -/
structure CtrlMsg where
  type : String
  deriving Repr, DecidableEq

/-- `JSON.stringify({ type: 'pong', timestamp: Date.now() })`. -/
def pongReply (now : Nat) : String :=
  "\x7b\"type\":\"pong\",\"timestamp\":" ++ toString now ++ "\x7d"

/-- `handleControlMessage`: `ping` answers with a pong text frame;
`resize` / `quality` / `clipboard` and unknown types only log. -/
def handleControlMessage (now : Nat) (m : CtrlMsg) : List SockAction :=
  match m.type with
  | "ping" => [SockAction.wsSendText (pongReply now)]
  | "resize" => []
  | "quality" => []
  | "clipboard" => []
  | _ => []

/-- The permanent `'message'` handler of `setupProxy`: binary data is
written to TCP verbatim; text data is parsed as JSON control and, on
parse failure, written verbatim as bytes. -/
def permMessageHandler (parse : String → Option CtrlMsg) (now : Nat)
    (targetWritable : Bool) : Frame → List SockAction
  | Frame.binary b =>
    if targetWritable then [SockAction.tcpWrite b] else []
  | Frame.text s =>
    match parse s with
    | some m => handleControlMessage now m
    | none =>
      if targetWritable then [SockAction.tcpWrite (strBytes s)] else []

/-- The buffering state of `handleConnection`: the `isProxyReady`
flag, the ordered `messageBuffer`, and the TCP writability bit. -/
structure SpliceState where
  isProxyReady : Bool
  messageBuffer : List Frame
  targetWritable : Bool
  deriving Repr, DecidableEq

/-- Initial state: handler installed before the dial starts. -/
def spliceInit : SpliceState :=
  ⟨false, [], false⟩

/-- Events of one connection around the dial. -/
inductive CEvent where
  | clientFrame (f : Frame)
  | dialDone
  deriving Repr, DecidableEq

/-- One event step: before the dial completes the temporary handler
buffers every frame; when the dial completes the buffer is flushed to
TCP in order (one write per frame, guarded by `target.writable`) and
the permanent handler takes over. -/
def spliceStep (parse : String → Option CtrlMsg) (now : Nat)
    (st : SpliceState) : CEvent → SpliceState × List SockAction
  | CEvent.clientFrame f =>
    if st.isProxyReady then
      (st, permMessageHandler parse now st.targetWritable f)
    else
      ({ st with messageBuffer := st.messageBuffer ++ [f] }, [])
  | CEvent.dialDone =>
    let writable := true
    (⟨true, [], writable⟩,
     st.messageBuffer.flatMap
       (fun f => if writable then [SockAction.tcpWrite (rawBytes f)] else []))

/-- Run the splice over an event list, concatenating emitted actions. -/
def runSplice (parse : String → Option CtrlMsg) (now : Nat) :
    SpliceState → List CEvent → SpliceState × List SockAction
  | st, [] => (st, [])
  | st, e :: evs =>
    let out := spliceStep parse now st e
    let rest := runSplice parse now out.1 evs
    (rest.1, out.2 ++ rest.2)

/-! ## Heartbeat monitor -/

/-- Liveness state of one WebSocket: the `isAlive` expando property
(`none` models JavaScript `undefined`) and whether the socket has been
terminated by the sweep. -/
structure WsHealth where
  isAlive : Option Bool
  terminated : Bool
  deriving Repr, DecidableEq

/-- Heartbeat events seen by one WebSocket. -/
inductive HbEvent where
  | tick
  | pong
  deriving Repr, DecidableEq

/-- One sweep visit of `startHeartbeat`: `isAlive === false` is
terminated; otherwise the flag is cleared and a ping is sent. -/
def heartbeatTick (w : WsHealth) : WsHealth × List SockAction :=
  if w.isAlive = some false then
    ({ w with terminated := true }, [SockAction.wsTerminate])
  else
    ({ w with isAlive := some false }, [SockAction.wsPing])

/-- Event step for one WebSocket: a terminated socket has left
`wss.clients` and receives nothing; a pong sets `isAlive` to true. -/
def hbStep (w : WsHealth) : HbEvent → WsHealth × List SockAction
  | HbEvent.tick => if w.terminated then (w, []) else heartbeatTick w
  | HbEvent.pong =>
    if w.terminated then (w, []) else ({ w with isAlive := some true }, [])

/-! ## Target resolver (`verifyAndGetVNCInfo`) -/

/-- The `{host, port, password}` tuple returned by the resolver. -/
structure VNCInfo where
  host : String
  port : Nat
  password : String
  deriving Repr, DecidableEq

/-- A per-VM cache entry stored in `sessionData.vncConnections`. -/
structure CachedVNCInfo where
  host : String
  port : Nat
  password : String
  timestamp : Nat
  deriving Repr, DecidableEq

/-- A session store entry; `vncConnections` may be absent
(the code guards with `sessionData.vncConnections && …`). -/
structure SessionData where
  ocloudToken : String
  vncConnections : Option (List (String × CachedVNCInfo))

/-- The decoded JWT payload (fields the resolver reads). -/
structure DecodedToken where
  userId : Option String
  sessionId : Option String
  vmId : Option String
  ocloudToken : Option String

/-- JavaScript truthiness of an optional string field. -/
def truthy (o : Option String) : Bool :=
  match o with
  | none => false
  | some s => s ≠ ""

/-- State of the upstream management API.  The API is non-idempotent:
the tuple returned depends on how many calls were made before
(`calls` counts them). -/
structure ApiState where
  calls : Nat
  infoAt : String → String → Nat → VNCInfo

/-- `ocloudviewService.getCompleteVNCInfo`: one upstream round trip;
each call consumes the next tuple for the given token and VM. -/
def getCompleteVNCInfo (tok vmId : String) (api : ApiState) :
    VNCInfo × ApiState :=
  (api.infoAt tok vmId api.calls, { api with calls := api.calls + 1 })

/-- `verifyAndGetVNCInfo`: `decoded` is the result of `jwt.verify`
(`none` when verification threw).  A VNC-specific token goes straight
to the API; a user token looks up the session and returns the per-VM
cache entry verbatim when present, calling the API only on a miss. -/
def verifyAndGetVNCInfo (decoded : Option DecodedToken) (vmId : String)
    (sessionStore : List (String × SessionData)) (api : ApiState) :
    Option VNCInfo × ApiState :=
  match decoded with
  | none => (none, api)
  | some d =>
    if truthy d.vmId && truthy d.ocloudToken then
      match d.ocloudToken with
      | some t =>
        let out := getCompleteVNCInfo t vmId api
        (some out.1, out.2)
      | none => (none, api)
    else if truthy d.sessionId then
      match d.sessionId with
      | some sid =>
        match mapGet sessionStore sid with
        | some sd =>
          match sd.vncConnections with
          | some vc =>
            match mapGet vc vmId with
            | some c => (some ⟨c.host, c.port, c.password⟩, api)
            | none =>
              let out := getCompleteVNCInfo sd.ocloudToken vmId api
              (some out.1, out.2)
          | none =>
            let out := getCompleteVNCInfo sd.ocloudToken vmId api
            (some out.1, out.2)
        | none => (none, api)
      | none => (none, api)
    else (none, api)

/-! ## Admission control and registration -/

/-- The two connection caps. -/
structure CapConfig where
  maxConnections : Nat
  maxConnectionsPerVM : Nat
  deriving Repr, DecidableEq

/-- Size of the connection-id set recorded for a VM
(`this.vmConnections.get(vmId) || new Set()`). -/
def vmConnCount (r : Registry) (vmId : String) : Nat :=
  ((mapGet r.vmConnections vmId).getD []).length

/-- Outcome of the two admission checks of `handleConnection`. -/
inductive AdmitDecision where
  | rejectedGlobal (actions : List SockAction)
  | rejectedPerVm (actions : List SockAction)
  | admitted
  deriving Repr, DecidableEq

/-- Frame and close emitted on a global-cap rejection. -/
def globalRejectActions : List SockAction :=
  [SockAction.wsSendText
     "\x7b\"type\":\"error\",\"message\":\"Server is at maximum capacity\"\x7d",
   SockAction.wsCloseCode 1008 "Max connections reached"]

/-- Frame and close emitted on a per-VM-cap rejection. -/
def perVmRejectActions : List SockAction :=
  [SockAction.wsSendText
     "\x7b\"type\":\"error\",\"message\":\"Too many connections for this VM\"\x7d",
   SockAction.wsCloseCode 1008 "Too many connections"]

/-- The admission checks, in source order: global cap first, then the
per-VM cap. -/
def admitCheck (cfg : CapConfig) (r : Registry) (vmId : String) :
    AdmitDecision :=
  if r.connections.length ≥ cfg.maxConnections then
    AdmitDecision.rejectedGlobal globalRejectActions
  else if vmConnCount r vmId ≥ cfg.maxConnectionsPerVM then
    AdmitDecision.rejectedPerVm perVmRejectActions
  else AdmitDecision.admitted

/-- Registration after a successful dial: store the record and add the
id to the VM index (creating the set when absent). -/
def registerConn (connectionId vmId : String) (r : Registry) : Registry :=
  { connections :=
      mapSet r.connections connectionId
        ⟨vmId, "", 0, 0, 0, "", true⟩,
    vmConnections :=
      mapSet r.vmConnections vmId
        (setAdd ((mapGet r.vmConnections vmId).getD []) connectionId) }

/-- State of the admission subsystem: the registry, the admitted
connections whose dial has not completed yet (`handleConnection`
suspends at `await createTargetConnection` between the checks and the
registration), and the id counter. -/
structure AdmState where
  registry : Registry
  inflight : List (String × String)
  counter : Nat
  deriving Repr, DecidableEq

/-- Events of the admission subsystem. -/
inductive AdmEvent where
  | arrive (vmId : String)
  | dialOk (connectionId vmId : String)
  | dialFail (connectionId vmId : String)
  | wsClosed (connectionId vmId : String)
  deriving Repr, DecidableEq

/-- One admission step.  `arrive` increments the counter, runs the two
checks, and on admission starts a dial; `dialOk` registers; `dialFail`
drops the dial; `wsClosed` runs `cleanupConnection`. -/
def admStep (cfg : CapConfig) (s : AdmState) : AdmEvent → AdmState
  | AdmEvent.arrive vmId =>
    let cnt := s.counter + 1
    let connectionId := vmId ++ "_" ++ toString cnt
    match admitCheck cfg s.registry vmId with
    | AdmitDecision.admitted =>
      { registry := s.registry,
        inflight := s.inflight ++ [(connectionId, vmId)], counter := cnt }
    | _ => { s with counter := cnt }
  | AdmEvent.dialOk c v =>
    if (c, v) ∈ s.inflight then
      { registry := registerConn c v s.registry,
        inflight := s.inflight.filter (fun p => p ≠ (c, v)),
        counter := s.counter }
    else s
  | AdmEvent.dialFail c v =>
    if (c, v) ∈ s.inflight then
      { s with inflight := s.inflight.filter (fun p => p ≠ (c, v)) }
    else s
  | AdmEvent.wsClosed c v =>
    { s with registry := cleanupConnection c v s.registry }

/-- The empty initial admission state. -/
def admInit : AdmState :=
  ⟨⟨[], []⟩, [], 0⟩

/-- Run the admission subsystem over an event list. -/
def admRun (cfg : CapConfig) (s : AdmState) : List AdmEvent → AdmState
  | [] => s
  | e :: evs => admRun cfg (admStep cfg s e) evs

/-- Guard of sequential handling: an `arrive` may only happen while no
dial is in flight. -/
def seqGuard (s : AdmState) : AdmEvent → Bool
  | AdmEvent.arrive _ => s.inflight.isEmpty
  | _ => true

/-- Checks that every `arrive` in the trace happens while no dial is
in flight (sequential, non-interleaved connection handling). -/
def seqRunOk (cfg : CapConfig) (s : AdmState) : List AdmEvent → Bool
  | [] => true
  | e :: evs => seqGuard s e && seqRunOk cfg (admStep cfg s e) evs

/-- The admission invariant of the spec: both caps hold. -/
def CapInv (cfg : CapConfig) (s : AdmState) : Prop :=
  s.registry.connections.length ≤ cfg.maxConnections ∧
  ∀ v, vmConnCount s.registry v ≤ cfg.maxConnectionsPerVM

/-- Inductive strengthening of `CapInv` for sequential runs: at most
one dial in flight, and a pending dial was admitted strictly below
both caps. -/
def StrongInv (cfg : CapConfig) (s : AdmState) : Prop :=
  s.registry.connections.length ≤ cfg.maxConnections ∧
  (∀ v, vmConnCount s.registry v ≤ cfg.maxConnectionsPerVM) ∧
  s.inflight.length ≤ 1 ∧
  (s.inflight ≠ [] →
    s.registry.connections.length < cfg.maxConnections ∧
    ∀ p ∈ s.inflight, vmConnCount s.registry p.2 < cfg.maxConnectionsPerVM)


/-! ## Map and set lemmas -/

theorem mapGet_nil {α : Type} (k : String) :
    mapGet ([] : List (String × α)) k = none := rfl

theorem mapGet_cons {α : Type} (p : String × α) (rest : List (String × α))
    (k : String) :
    mapGet (p :: rest) k = if p.1 = k then some p.2 else mapGet rest k := rfl

theorem mapDelete_nil {α : Type} (k : String) :
    mapDelete ([] : List (String × α)) k = [] := rfl

theorem mapDelete_cons {α : Type} (p : String × α)
    (rest : List (String × α)) (k : String) :
    mapDelete (p :: rest) k =
      if p.1 = k then mapDelete rest k else p :: mapDelete rest k := by
  by_cases h : p.1 = k <;> simp [mapDelete, h]

theorem mapSet_nil {α : Type} (k : String) (v : α) :
    mapSet ([] : List (String × α)) k v = [(k, v)] := rfl

theorem mapSet_cons {α : Type} (p : String × α) (rest : List (String × α))
    (k : String) (v : α) :
    mapSet (p :: rest) k v =
      if p.1 = k then (p.1, v) :: rest else p :: mapSet rest k v := rfl

theorem mapGet_mapDelete_self {α : Type} (m : List (String × α)) (k : String) :
    mapGet (mapDelete m k) k = none := by
  induction m with
  | nil => rfl
  | cons p rest ih =>
    rw [mapDelete_cons]
    by_cases h : p.1 = k
    · simp [h, ih]
    · rw [if_neg h, mapGet_cons, if_neg h, ih]

theorem mapGet_mapDelete_ne {α : Type} (m : List (String × α))
    (k k' : String) (h : k' ≠ k) :
    mapGet (mapDelete m k) k' = mapGet m k' := by
  induction m with
  | nil => rfl
  | cons p rest ih =>
    rw [mapDelete_cons, mapGet_cons]
    by_cases hp : p.1 = k
    · have hp' : p.1 ≠ k' := fun hc => h (hc ▸ hp)
      rw [if_pos hp, if_neg hp', ih]
    · rw [if_neg hp, mapGet_cons, ih]

theorem mapDelete_mapDelete {α : Type} (m : List (String × α)) (k : String) :
    mapDelete (mapDelete m k) k = mapDelete m k := by
  simp [mapDelete, List.filter_filter]

theorem mapGet_mapSet_self {α : Type} (m : List (String × α))
    (k : String) (v : α) :
    mapGet (mapSet m k v) k = some v := by
  induction m with
  | nil => simp [mapSet_nil, mapGet_cons]
  | cons p rest ih =>
    rw [mapSet_cons]
    by_cases h : p.1 = k
    · rw [if_pos h, mapGet_cons]
      simp [h]
    · rw [if_neg h, mapGet_cons, if_neg h, ih]

theorem mapGet_mapSet_ne {α : Type} (m : List (String × α))
    (k k' : String) (v : α) (h : k' ≠ k) :
    mapGet (mapSet m k v) k' = mapGet m k' := by
  induction m with
  | nil =>
    rw [mapSet_nil, mapGet_cons, mapGet_nil]
    exact if_neg fun hc => h hc.symm
  | cons p rest ih =>
    rw [mapSet_cons]
    by_cases hp : p.1 = k
    · have hp' : p.1 ≠ k' := fun hc => h (hc ▸ hp)
      rw [if_pos hp, mapGet_cons, mapGet_cons]
      simp [hp']
    · rw [if_neg hp, mapGet_cons, mapGet_cons, ih]

theorem mapSet_mapSet {α : Type} (m : List (String × α))
    (k : String) (v w : α) :
    mapSet (mapSet m k v) k w = mapSet m k w := by
  induction m with
  | nil => simp [mapSet_nil, mapSet_cons]
  | cons p rest ih =>
    by_cases h : p.1 = k
    · simp [mapSet_cons, h]
    · simp [mapSet_cons, h, ih]

theorem setDelete_setDelete (s : List String) (x : String) :
    setDelete (setDelete s x) x = setDelete s x := by
  simp [setDelete, List.filter_filter]

theorem mapDelete_length_le {α : Type} (m : List (String × α)) (k : String) :
    (mapDelete m k).length ≤ m.length :=
  List.length_filter_le _ m

theorem setDelete_length_le (s : List String) (x : String) :
    (setDelete s x).length ≤ s.length :=
  List.length_filter_le _ s

theorem mapSet_length_le {α : Type} (m : List (String × α))
    (k : String) (v : α) :
    (mapSet m k v).length ≤ m.length + 1 := by
  induction m with
  | nil => simp [mapSet_nil]
  | cons p rest ih =>
    rw [mapSet_cons]
    by_cases h : p.1 = k
    · simp [h]
    · simp only [if_neg h, List.length_cons]
      omega

theorem setAdd_length_le (s : List String) (x : String) :
    (setAdd s x).length ≤ s.length + 1 := by
  by_cases h : x ∈ s <;> simp [setAdd, h]

theorem registry_eq (a b : Registry)
    (h₁ : a.connections = b.connections)
    (h₂ : a.vmConnections = b.vmConnections) : a = b := by
  cases a; cases b; simp_all

/-! ## Cleanup characterization -/

theorem cleanup_connections_eq (c v : String) (r : Registry) :
    (cleanupConnection c v r).connections = mapDelete r.connections c := by
  unfold cleanupConnection
  split
  · rfl
  · dsimp only
    split <;> rfl

theorem cleanup_vm_none (c v : String) (r : Registry)
    (h : mapGet r.vmConnections v = none) :
    (cleanupConnection c v r).vmConnections = r.vmConnections := by
  unfold cleanupConnection
  rw [h]

theorem cleanup_vm_some_empty (c v : String) (r : Registry) (s : List String)
    (h : mapGet r.vmConnections v = some s)
    (hl : (setDelete s c).length = 0) :
    (cleanupConnection c v r).vmConnections = mapDelete r.vmConnections v := by
  unfold cleanupConnection
  rw [h]
  simp [hl]

theorem cleanup_vm_some_ne (c v : String) (r : Registry) (s : List String)
    (h : mapGet r.vmConnections v = some s)
    (hl : ¬ (setDelete s c).length = 0) :
    (cleanupConnection c v r).vmConnections =
      mapSet r.vmConnections v (setDelete s c) := by
  unfold cleanupConnection
  rw [h]
  simp [hl]

theorem cleanupConnection_idem (c v : String) (r : Registry) :
    cleanupConnection c v (cleanupConnection c v r) =
      cleanupConnection c v r := by
  apply registry_eq
  · rw [cleanup_connections_eq, cleanup_connections_eq, mapDelete_mapDelete]
  · cases h : mapGet r.vmConnections v with
    | none =>
      have h₁ := cleanup_vm_none c v r h
      have h₂ : mapGet (cleanupConnection c v r).vmConnections v = none := by
        rw [h₁, h]
      rw [cleanup_vm_none c v _ h₂, h₁]
    | some s =>
      by_cases hl : (setDelete s c).length = 0
      · have h₁ := cleanup_vm_some_empty c v r s h hl
        have h₂ : mapGet (cleanupConnection c v r).vmConnections v = none := by
          rw [h₁]; exact mapGet_mapDelete_self _ _
        rw [cleanup_vm_none c v _ h₂, h₁]
      · have h₁ := cleanup_vm_some_ne c v r s h hl
        have h₂ : mapGet (cleanupConnection c v r).vmConnections v =
            some (setDelete s c) := by
          rw [h₁]; exact mapGet_mapSet_self _ _ _
        have hl₂ : ¬ (setDelete (setDelete s c) c).length = 0 := by
          rw [setDelete_setDelete]; exact hl
        rw [cleanup_vm_some_ne c v _ _ h₂ hl₂, h₁, setDelete_setDelete,
          mapSet_mapSet]

theorem cleanup_no_empty (c v : String) (r : Registry)
    (h : NoEmptyVmEntry r) : NoEmptyVmEntry (cleanupConnection c v r) := by
  intro v' s' hget
  cases hvm : mapGet r.vmConnections v with
  | none =>
    rw [cleanup_vm_none c v r hvm] at hget
    exact h v' s' hget
  | some s =>
    by_cases hl : (setDelete s c).length = 0
    · rw [cleanup_vm_some_empty c v r s hvm hl] at hget
      by_cases hv : v' = v
      · subst hv
        rw [mapGet_mapDelete_self] at hget
        cases hget
      · rw [mapGet_mapDelete_ne _ _ _ hv] at hget
        exact h v' s' hget
    · rw [cleanup_vm_some_ne c v r s hvm hl] at hget
      by_cases hv : v' = v
      · subst hv
        rw [mapGet_mapSet_self] at hget
        injection hget with he
        intro hnil
        exact hl (by rw [he, hnil]; rfl)
      · rw [mapGet_mapSet_ne _ _ _ _ hv] at hget
        exact h v' s' hget

/-- C9: releasing a connection is idempotent, and after any release no
vm-id maps to an empty connection-id set (empty entries are removed). -/
theorem cleanup_idempotent_and_no_empty_entries
    (c v : String) (r : Registry) (h : NoEmptyVmEntry r) :
    cleanupConnection c v (cleanupConnection c v r) =
        cleanupConnection c v r ∧
      NoEmptyVmEntry (cleanupConnection c v r) :=
  ⟨cleanupConnection_idem c v r, cleanup_no_empty c v r h⟩

/-- Witness for C9 at a registry with one connection of one VM. -/
theorem cleanup_idempotent_and_no_empty_entries_witness :
    cleanupConnection "c1" "vm1"
        (cleanupConnection "c1" "vm1"
          ⟨[("c1", ⟨"vm1", "h", 1, 0, 0, "a", true⟩)], [("vm1", ["c1"])]⟩) =
      cleanupConnection "c1" "vm1"
        ⟨[("c1", ⟨"vm1", "h", 1, 0, 0, "a", true⟩)], [("vm1", ["c1"])]⟩ ∧
    NoEmptyVmEntry (cleanupConnection "c1" "vm1"
        ⟨[("c1", ⟨"vm1", "h", 1, 0, 0, "a", true⟩)], [("vm1", ["c1"])]⟩) := by
  have h : NoEmptyVmEntry
      ⟨[("c1", ⟨"vm1", "h", 1, 0, 0, "a", true⟩)], [("vm1", ["c1"])]⟩ := by
    intro v s hg
    rw [mapGet_cons] at hg
    by_cases hv : "vm1" = v
    · rw [if_pos hv] at hg
      injection hg with he
      rw [← he]
      simp
    · rw [if_neg hv] at hg
      cases hg
  exact cleanup_idempotent_and_no_empty_entries "c1" "vm1" _ h

/-- C10: after `shutdown` both registry maps are empty and the
heartbeat timer is cleared, for every starting state. -/
theorem shutdown_clears_state (p : ProxyState) :
    (shutdown p).2.registry.connections = [] ∧
    (shutdown p).2.registry.vmConnections = [] ∧
    (shutdown p).2.heartbeatInterval = none := by
  refine ⟨rfl, rfl, ?_⟩
  show (stopHeartbeat p).heartbeatInterval = none
  unfold stopHeartbeat
  cases h : p.heartbeatInterval <;> simp [h]

/-- C6: the WebSocket close handler half-closes TCP and releases the
record; the TCP close handler closes the WebSocket with 1000 exactly
when it is open and releases the record. -/
theorem close_handlers_halfclose_and_release
    (c v : String) (r : Registry) (b : Bool) :
    (onWsClose c v r).1 = [SockAction.tcpEnd] ∧
    mapGet (onWsClose c v r).2.connections c = none ∧
    (onTcpClose c v true r).1 =
      [SockAction.wsCloseCode 1000 "Server connection closed"] ∧
    (onTcpClose c v false r).1 = [] ∧
    mapGet (onTcpClose c v b r).2.connections c = none := by
  refine ⟨rfl, ?_, rfl, rfl, ?_⟩ <;>
  · show mapGet (cleanupConnection c v r).connections c = none
    rw [cleanup_connections_eq]
    exact mapGet_mapDelete_self _ _

/-! ## Dial engine lemmas (C5) -/

theorem dialGo_attempts_le (outcome : Nat → Except String Nat)
    (rd mult : Nat) :
    ∀ r a, (dialGo outcome rd mult a r).attempts ≤ r + 1 := by
  intro r
  induction r with
  | zero =>
    intro a
    cases h : outcome a <;> simp [dialGo, h]
  | succ r ih =>
    intro a
    cases h : outcome a with
    | ok s => simp [dialGo, h]
    | error e =>
      simp only [dialGo, h]
      have := ih (a + 1)
      omega

theorem dialGo_success (outcome : Nat → Except String Nat)
    (rd mult : Nat) :
    ∀ r a j s, 1 ≤ a → 1 ≤ j → j ≤ r + 1 →
      (∀ i, a ≤ i → i < a + j - 1 → ∃ e, outcome i = Except.error e) →
      outcome (a + j - 1) = Except.ok s →
      dialGo outcome rd mult a r =
        ⟨Except.ok s,
         (List.range (j - 1)).map (fun k => rd * mult ^ (a - 1 + k)), j⟩ := by
  intro r
  induction r with
  | zero =>
    intro a j s ha hj hjr herr hok
    have hj1 : j = 1 := le_antisymm hjr hj
    subst hj1
    have ha1 : a + 1 - 1 = a := by omega
    rw [ha1] at hok
    simp [dialGo, hok]
  | succ r ih =>
    intro a j s ha hj hjr herr hok
    by_cases hj1 : j = 1
    · subst hj1
      have ha1 : a + 1 - 1 = a := by omega
      rw [ha1] at hok
      simp [dialGo, hok]
    · have hj2 : 2 ≤ j := by omega
      obtain ⟨e, he⟩ := herr a (le_refl a) (by omega)
      have hrec := ih (a + 1) (j - 1) s (by omega) (by omega) (by omega)
        (fun i h₁ h₂ => herr i (by omega) (by omega))
        (by
          have hidx : a + 1 + (j - 1) - 1 = a + j - 1 := by omega
          rw [hidx]
          exact hok)
      simp only [dialGo, he, hrec]
      have hj3 : j - 1 = (j - 2) + 1 := by omega
      have hj4 : j - 1 - 1 = j - 2 := by omega
      have hfun :
          ((fun k => rd * mult ^ (a - 1 + k)) ∘ Nat.succ) =
            (fun k => rd * mult ^ (a + 1 - 1 + k)) := by
        funext k
        have hidx : a - 1 + Nat.succ k = a + 1 - 1 + k := by omega
        simp [Function.comp, hidx]
      have hatt : j - 1 + 1 = j := by omega
      have hs : rd * mult ^ (a - 1) ::
          List.map (fun k => rd * mult ^ (a + 1 - 1 + k))
            (List.range (j - 1 - 1)) =
          List.map (fun k => rd * mult ^ (a - 1 + k)) (List.range (j - 1)) := by
        rw [hj4, hj3, List.range_succ_eq_map, List.map_cons, List.map_map,
          hfun]
        simp
      rw [hs, hatt]

theorem dialGo_allfail (outcome : Nat → Except String Nat)
    (rd mult : Nat) :
    ∀ r a e, 1 ≤ a →
      (∀ i, a ≤ i → i < a + r → ∃ e', outcome i = Except.error e') →
      outcome (a + r) = Except.error e →
      dialGo outcome rd mult a r =
        ⟨Except.error e,
         (List.range r).map (fun k => rd * mult ^ (a - 1 + k)), r + 1⟩ := by
  intro r
  induction r with
  | zero =>
    intro a e ha herr hlast
    simp only [Nat.add_zero] at hlast
    simp [dialGo, hlast]
  | succ r ih =>
    intro a e ha herr hlast
    obtain ⟨e₀, he₀⟩ := herr a (le_refl a) (by omega)
    have hrec := ih (a + 1) e (by omega)
      (fun i h₁ h₂ => herr i (by omega) (by omega))
      (by
        have hidx : a + 1 + r = a + (r + 1) := by omega
        rw [hidx]
        exact hlast)
    simp only [dialGo, he₀, hrec]
    have hfun :
        ((fun k => rd * mult ^ (a - 1 + k)) ∘ Nat.succ) =
          (fun k => rd * mult ^ (a + 1 - 1 + k)) := by
      funext k
      have hidx : a - 1 + Nat.succ k = a + 1 - 1 + k := by omega
      simp [Function.comp, hidx]
    have hs : rd * mult ^ (a - 1) ::
        List.map (fun k => rd * mult ^ (a + 1 - 1 + k)) (List.range r) =
        List.map (fun k => rd * mult ^ (a - 1 + k)) (List.range (r + 1)) := by
      rw [List.range_succ_eq_map, List.map_cons, List.map_map, hfun]
      simp
    rw [hs]

/-- C5: the dial engine makes at most `maxRetries + 1` attempts; when
the j-th attempt is the first success it returns that socket after
sleeping `retryDelay * multiplier ^ (k-1)` after the k-th failure, in
order; when every attempt fails it propagates the last attempt's
error. -/
theorem dial_retry_semantics (cfg : DialConfig)
    (outcome : Nat → Except String Nat) :
    (createTargetConnection cfg outcome).attempts ≤ cfg.maxRetries + 1 ∧
    (∀ j s, 1 ≤ j → j ≤ cfg.maxRetries + 1 →
      (∀ i, 1 ≤ i → i < j → ∃ e, outcome i = Except.error e) →
      outcome j = Except.ok s →
      createTargetConnection cfg outcome =
        ⟨Except.ok s,
         (List.range (j - 1)).map
           (fun k => cfg.retryDelay * cfg.retryBackoffMultiplier ^ k),
         j⟩) ∧
    (∀ e,
      (∀ i, 1 ≤ i → i ≤ cfg.maxRetries → ∃ e', outcome i = Except.error e') →
      outcome (cfg.maxRetries + 1) = Except.error e →
      createTargetConnection cfg outcome =
        ⟨Except.error e,
         (List.range cfg.maxRetries).map
           (fun k => cfg.retryDelay * cfg.retryBackoffMultiplier ^ k),
         cfg.maxRetries + 1⟩) := by
  refine ⟨dialGo_attempts_le outcome _ _ cfg.maxRetries 1, ?_, ?_⟩
  · intro j s hj hjr herr hok
    have h := dialGo_success outcome cfg.retryDelay cfg.retryBackoffMultiplier
      cfg.maxRetries 1 j s (le_refl 1) hj hjr
      (fun i h₁ h₂ => herr i h₁ (by omega))
      (by
        have : 1 + j - 1 = j := by omega
        rw [this]
        exact hok)
    simpa [createTargetConnection] using h
  · intro e herr hlast
    have h := dialGo_allfail outcome cfg.retryDelay cfg.retryBackoffMultiplier
      cfg.maxRetries 1 e (le_refl 1)
      (fun i h₁ h₂ => herr i h₁ (by omega))
      (by
        have : 1 + cfg.maxRetries = cfg.maxRetries + 1 := by omega
        rw [this]
        exact hlast)
    simpa [createTargetConnection] using h

/-- Witness for C5: two failures then a success with
`maxRetries = 3`, `retryDelay = 100`, multiplier 2: sleeps 100 then
200 ms and the socket of attempt 3 is returned. -/
theorem dial_retry_semantics_witness :
    createTargetConnection ⟨3, 100, 2⟩
        (fun i => if i < 3 then Except.error ("fail" ++ toString i)
                  else Except.ok 7) =
      ⟨Except.ok 7, [100, 200], 3⟩ := by
  have h := (dial_retry_semantics ⟨3, 100, 2⟩
      (fun i => if i < 3 then Except.error ("fail" ++ toString i)
                else Except.ok 7)).2.1 3 7 (by decide) (by decide)
    (by
      intro i h₁ h₂
      exact ⟨"fail" ++ toString i, by simp [show i < 3 from h₂]⟩)
    (by simp)
  simpa using h

/-! ## Splice engine lemmas (C2, C3, C7) -/

theorem runSplice_buffering (parse : String → Option CtrlMsg) (now : Nat)
    (pre : List Frame) :
    ∀ (buf : List Frame) (w : Bool) (rest : List CEvent),
      runSplice parse now ⟨false, buf, w⟩
          (pre.map CEvent.clientFrame ++ rest) =
        runSplice parse now ⟨false, buf ++ pre, w⟩ rest := by
  induction pre with
  | nil => intro buf w rest; simp
  | cons f fs ih =>
    intro buf w rest
    have hstep :
        runSplice parse now ⟨false, buf, w⟩
            (CEvent.clientFrame f :: (fs.map CEvent.clientFrame ++ rest)) =
          runSplice parse now ⟨false, buf ++ [f], w⟩
            (fs.map CEvent.clientFrame ++ rest) := by
      simp [runSplice, spliceStep]
    simp only [List.map_cons, List.cons_append, hstep, ih (buf ++ [f]) w rest,
      List.append_assoc, List.singleton_append]
    simp

theorem runSplice_streaming (parse : String → Option CtrlMsg) (now : Nat)
    (post : List Frame) :
    ∀ buf : List Frame,
      runSplice parse now ⟨true, buf, true⟩ (post.map CEvent.clientFrame) =
        (⟨true, buf, true⟩,
         post.flatMap (permMessageHandler parse now true)) := by
  induction post with
  | nil => intro buf; simp [runSplice]
  | cons f fs ih =>
    intro buf
    simp [runSplice, spliceStep, ih buf]

/-- C2: all frames that arrive before the dial completes are written
to TCP on dial completion, one write per frame with its exact bytes in
arrival order, and every write for a post-dial frame comes after
them. -/
theorem buffered_frames_flushed_in_order (parse : String → Option CtrlMsg)
    (now : Nat) (pre post : List Frame) :
    (runSplice parse now spliceInit
        (pre.map CEvent.clientFrame ++
          CEvent.dialDone :: post.map CEvent.clientFrame)).2 =
      pre.map (fun f => SockAction.tcpWrite (rawBytes f)) ++
        post.flatMap (permMessageHandler parse now true) := by
  show (runSplice parse now ⟨false, [], false⟩ _).2 = _
  rw [runSplice_buffering parse now pre [] false]
  have hstep :
      runSplice parse now ⟨false, ([] : List Frame) ++ pre, false⟩
          (CEvent.dialDone :: post.map CEvent.clientFrame) =
        (⟨true, [], true⟩,
         (pre.map (fun f => SockAction.tcpWrite (rawBytes f)) ++
           post.flatMap (permMessageHandler parse now true))) := by
    simp [runSplice, spliceStep, runSplice_streaming parse now post []]
    induction pre with
    | nil => simp
    | cons f fs ihp => simp [ihp]
  rw [hstep]

theorem spliceStep_no_close (parse : String → Option CtrlMsg) (now : Nat)
    (st : SpliceState) (e : CEvent) (code : Nat) (reason : String) :
    SockAction.wsCloseCode code reason ∉ (spliceStep parse now st e).2 := by
  cases e with
  | clientFrame f =>
    by_cases hr : st.isProxyReady
    · simp only [spliceStep, hr, if_pos]
      cases f with
      | binary b =>
        by_cases hw : st.targetWritable <;>
          simp [permMessageHandler, hw]
      | text s =>
        cases hp : parse s with
        | some m =>
          simp only [permMessageHandler, hp]
          unfold handleControlMessage
          split <;> simp
        | none =>
          by_cases hw : st.targetWritable <;>
            simp [permMessageHandler, hp, hw]
    · simp [spliceStep, hr]
  | dialDone =>
    simp [spliceStep]

/-- C3 (divergence witness): the buffering path never closes the
WebSocket, whatever the buffered volume is — `bufferMaxSize` (default
1 MiB) is configured but consulted nowhere — so a pre-dial overflow
does not produce close code 1011. -/
theorem buffer_limit_unenforced (parse : String → Option CtrlMsg)
    (now : Nat) :
    configBufferMaxSize ⟨none, none, none, none, none, none, none⟩ =
        1048576 ∧
    (∀ (st : SpliceState) (evs : List CEvent) (code : Nat) (reason : String),
      SockAction.wsCloseCode code reason ∉ (runSplice parse now st evs).2) ∧
    (runSplice parse now spliceInit
        [CEvent.clientFrame (Frame.binary [0, 1, 2, 3, 4])]).1.messageBuffer =
      [Frame.binary [0, 1, 2, 3, 4]] := by
  refine ⟨rfl, ?_, rfl⟩
  intro st evs
  induction evs generalizing st with
  | nil => intro code reason; simp [runSplice]
  | cons e evs ih =>
    intro code reason
    simp only [runSplice, List.mem_append]
    push_neg
    exact ⟨spliceStep_no_close parse now st e code reason,
      ih (spliceStep parse now st e).1 code reason⟩

/-- C7: a text frame parsing as a `ping` control message produces
exactly one pong reply and no TCP write; a text frame that fails to
parse as JSON is written to TCP verbatim as bytes. -/
theorem control_ping_and_text_fallback (parse : String → Option CtrlMsg)
    (now : Nat) (s : String) (m : CtrlMsg) :
    (parse s = some m → m.type = "ping" →
      permMessageHandler parse now true (Frame.text s) =
          [SockAction.wsSendText (pongReply now)] ∧
        ∀ bytes, SockAction.tcpWrite bytes ∉
          permMessageHandler parse now true (Frame.text s)) ∧
    (parse s = none →
      permMessageHandler parse now true (Frame.text s) =
        [SockAction.tcpWrite (strBytes s)]) := by
  constructor
  · intro hp ht
    have h : permMessageHandler parse now true (Frame.text s) =
        [SockAction.wsSendText (pongReply now)] := by
      simp [permMessageHandler, hp, handleControlMessage, ht]
    refine ⟨h, ?_⟩
    intro bytes
    rw [h]
    simp
  · intro hp
    simp [permMessageHandler, hp]

/-- Witness for C7 with a concrete one-entry parser, the ping message
and a non-JSON text frame. -/
theorem control_ping_and_text_fallback_witness :
    (permMessageHandler
        (fun t => if t = "\x7b\"type\":\"ping\"\x7d"
                  then some ⟨"ping"⟩ else none)
        1234 true (Frame.text "\x7b\"type\":\"ping\"\x7d") =
          [SockAction.wsSendText (pongReply 1234)] ∧
      ∀ bytes, SockAction.tcpWrite bytes ∉
        permMessageHandler
          (fun t => if t = "\x7b\"type\":\"ping\"\x7d"
                    then some ⟨"ping"⟩ else none)
          1234 true (Frame.text "\x7b\"type\":\"ping\"\x7d")) ∧
    permMessageHandler
        (fun t => if t = "\x7b\"type\":\"ping\"\x7d"
                  then some ⟨"ping"⟩ else none)
        1234 true (Frame.text "RFB 003.008") =
      [SockAction.tcpWrite (strBytes "RFB 003.008")] := by
  constructor
  · exact (control_ping_and_text_fallback
      (fun t => if t = "\x7b\"type\":\"ping\"\x7d"
                then some ⟨"ping"⟩ else none)
      1234 "\x7b\"type\":\"ping\"\x7d" ⟨"ping"⟩).1 (by simp) rfl
  · exact (control_ping_and_text_fallback
      (fun t => if t = "\x7b\"type\":\"ping\"\x7d"
                then some ⟨"ping"⟩ else none)
      1234 "RFB 003.008" ⟨"ping"⟩).2 (by simp)

/-! ## Heartbeat theorems (C8) -/

/-- C8: on a sweep tick a WebSocket with a false `isAlive` flag is
terminated; any other WebSocket has the flag cleared and a ping sent;
a pong restores the flag; and a socket that never answers the ping is
terminated by the following tick (two pong-less ticks always leave it
terminated). -/
theorem heartbeat_sweep_semantics (w : WsHealth) :
    (w.terminated = false → w.isAlive = some false →
      hbStep w HbEvent.tick =
        ({ w with terminated := true }, [SockAction.wsTerminate])) ∧
    (w.terminated = false → w.isAlive ≠ some false →
      hbStep w HbEvent.tick =
        ({ w with isAlive := some false }, [SockAction.wsPing])) ∧
    (w.terminated = false →
      (hbStep w HbEvent.pong).1.isAlive = some true) ∧
    (hbStep (hbStep w HbEvent.tick).1 HbEvent.tick).1.terminated = true := by
  refine ⟨?_, ?_, ?_, ?_⟩
  · intro ht ha
    simp [hbStep, ht, heartbeatTick, ha]
  · intro ht ha
    simp [hbStep, ht, heartbeatTick, ha]
  · intro ht
    simp [hbStep, ht]
  · by_cases ht : w.terminated
    · simp [hbStep, ht]
    · by_cases ha : w.isAlive = some false
      · simp [hbStep, ht, heartbeatTick, ha]
      · simp [hbStep, ht, heartbeatTick, ha]

/-- Witness for C8 at a live WebSocket whose flag is set. -/
theorem heartbeat_sweep_semantics_witness :
    hbStep ⟨some true, false⟩ HbEvent.tick =
        (⟨some false, false⟩, [SockAction.wsPing]) ∧
      (hbStep (hbStep ⟨some true, false⟩ HbEvent.tick).1
          HbEvent.tick).1.terminated = true ∧
      hbStep ⟨some false, false⟩ HbEvent.tick =
        (⟨some false, true⟩, [SockAction.wsTerminate]) ∧
      (hbStep ⟨some false, false⟩ HbEvent.pong).1.isAlive = some true := by
  refine ⟨?_, ?_, ?_, ?_⟩
  · exact (heartbeat_sweep_semantics ⟨some true, false⟩).2.1 rfl (by decide)
  · exact (heartbeat_sweep_semantics ⟨some true, false⟩).2.2.2
  · exact (heartbeat_sweep_semantics ⟨some false, false⟩).1 rfl rfl
  · exact (heartbeat_sweep_semantics ⟨some false, false⟩).2.2.1 rfl

/-! ## Resolver theorems (C1) -/

/-- C1: when the session's per-VM cache holds an entry for the VM, the
resolver returns the cached `{host, port, password}` tuple verbatim,
leaves the upstream API untouched (same call counter, same state), and
therefore every such call returns the identical password. -/
theorem resolver_cache_hit_stable (d : DecodedToken) (vmId sid : String)
    (sd : SessionData) (vc : List (String × CachedVNCInfo))
    (c : CachedVNCInfo) (store : List (String × SessionData))
    (hnotvnc : (truthy d.vmId && truthy d.ocloudToken) = false)
    (hsid : d.sessionId = some sid) (hsidne : sid ≠ "")
    (hstore : mapGet store sid = some sd)
    (hvc : sd.vncConnections = some vc)
    (hc : mapGet vc vmId = some c) :
    (∀ api, verifyAndGetVNCInfo (some d) vmId store api =
        (some ⟨c.host, c.port, c.password⟩, api)) ∧
    (∀ api, (verifyAndGetVNCInfo (some d) vmId store api).2.calls =
        api.calls) ∧
    (∀ api₁ api₂,
      (verifyAndGetVNCInfo (some d) vmId store api₁).1 =
        (verifyAndGetVNCInfo (some d) vmId store api₂).1) := by
  have key : ∀ api, verifyAndGetVNCInfo (some d) vmId store api =
      (some ⟨c.host, c.port, c.password⟩, api) := by
    intro api
    simp only [verifyAndGetVNCInfo, hnotvnc, Bool.false_eq_true, if_false,
      hsid]
    rw [hstore]
    simp [truthy, hsidne, hvc, hc]
  refine ⟨key, ?_, ?_⟩
  · intro api
    rw [key api]
  · intro api₁ api₂
    rw [key api₁, key api₂]

/-- Witness for C1: a concrete session with a cached entry for
`vm1`; two distinct API states (the second already advanced, so a
fresh call would return a different password) yield the same cached
password and the API state is returned unchanged. -/
theorem resolver_cache_hit_stable_witness :
    (verifyAndGetVNCInfo
        (some ⟨some "u1", some "s1", none, none⟩) "vm1"
        [("s1", ⟨"tok",
            some [("vm1", ⟨"10.0.0.7", 5901, "pa55", 0⟩)]⟩)]
        ⟨0, fun _ _ n => ⟨"api", 1, "fresh" ++ toString n⟩⟩ =
      (some ⟨"10.0.0.7", 5901, "pa55"⟩,
        ⟨0, fun _ _ n => ⟨"api", 1, "fresh" ++ toString n⟩⟩)) ∧
    (verifyAndGetVNCInfo
        (some ⟨some "u1", some "s1", none, none⟩) "vm1"
        [("s1", ⟨"tok",
            some [("vm1", ⟨"10.0.0.7", 5901, "pa55", 0⟩)]⟩)]
        ⟨0, fun _ _ n => ⟨"api", 1, "fresh" ++ toString n⟩⟩).1 =
      (verifyAndGetVNCInfo
        (some ⟨some "u1", some "s1", none, none⟩) "vm1"
        [("s1", ⟨"tok",
            some [("vm1", ⟨"10.0.0.7", 5901, "pa55", 0⟩)]⟩)]
        ⟨7, fun _ _ n => ⟨"api", 1, "fresh" ++ toString n⟩⟩).1 := by
  have h := resolver_cache_hit_stable
    ⟨some "u1", some "s1", none, none⟩ "vm1" "s1"
    ⟨"tok", some [("vm1", ⟨"10.0.0.7", 5901, "pa55", 0⟩)]⟩
    [("vm1", ⟨"10.0.0.7", 5901, "pa55", 0⟩)]
    ⟨"10.0.0.7", 5901, "pa55", 0⟩
    [("s1", ⟨"tok", some [("vm1", ⟨"10.0.0.7", 5901, "pa55", 0⟩)]⟩)]
    (by decide) rfl (by decide) rfl rfl rfl
  exact ⟨h.1 _, h.2.2 _ _⟩

/-! ## Admission lemmas (C4) -/

theorem admitCheck_global (cfg : CapConfig) (r : Registry) (v : String)
    (h : cfg.maxConnections ≤ r.connections.length) :
    admitCheck cfg r v = AdmitDecision.rejectedGlobal globalRejectActions := by
  unfold admitCheck
  rw [if_pos h]

theorem admitCheck_perVm (cfg : CapConfig) (r : Registry) (v : String)
    (h₁ : r.connections.length < cfg.maxConnections)
    (h₂ : cfg.maxConnectionsPerVM ≤ vmConnCount r v) :
    admitCheck cfg r v = AdmitDecision.rejectedPerVm perVmRejectActions := by
  unfold admitCheck
  rw [if_neg (by omega), if_pos h₂]

theorem admitCheck_admitted_iff (cfg : CapConfig) (r : Registry)
    (v : String) :
    admitCheck cfg r v = AdmitDecision.admitted ↔
      r.connections.length < cfg.maxConnections ∧
      vmConnCount r v < cfg.maxConnectionsPerVM := by
  unfold admitCheck
  by_cases h₁ : r.connections.length ≥ cfg.maxConnections
  · rw [if_pos h₁]
    constructor
    · intro h; simp at h
    · intro h; omega
  · rw [if_neg h₁]
    by_cases h₂ : vmConnCount r v ≥ cfg.maxConnectionsPerVM
    · rw [if_pos h₂]
      constructor
      · intro h; simp at h
      · intro h; omega
    · rw [if_neg h₂]
      exact ⟨fun _ => ⟨by omega, by omega⟩, fun _ => rfl⟩

theorem cleanup_connections_length_le (c v : String) (r : Registry) :
    (cleanupConnection c v r).connections.length ≤
      r.connections.length := by
  rw [cleanup_connections_eq]
  exact mapDelete_length_le _ _

theorem vmConnCount_cleanup_le (c v v' : String) (r : Registry) :
    vmConnCount (cleanupConnection c v r) v' ≤ vmConnCount r v' := by
  cases h : mapGet r.vmConnections v with
  | none =>
    unfold vmConnCount
    rw [cleanup_vm_none c v r h]
  | some s =>
    by_cases hl : (setDelete s c).length = 0
    · unfold vmConnCount
      rw [cleanup_vm_some_empty c v r s h hl]
      by_cases hv : v' = v
      · subst hv
        rw [mapGet_mapDelete_self]
        simp
      · rw [mapGet_mapDelete_ne _ _ _ hv]
    · unfold vmConnCount
      rw [cleanup_vm_some_ne c v r s h hl]
      by_cases hv : v' = v
      · subst hv
        rw [mapGet_mapSet_self, h]
        simpa using setDelete_length_le s c
      · rw [mapGet_mapSet_ne _ _ _ _ hv]

theorem register_connections_length_le (c v : String) (r : Registry) :
    (registerConn c v r).connections.length ≤
      r.connections.length + 1 :=
  mapSet_length_le _ _ _

theorem vmConnCount_register_self (c v : String) (r : Registry) :
    vmConnCount (registerConn c v r) v ≤ vmConnCount r v + 1 := by
  unfold vmConnCount registerConn
  rw [mapGet_mapSet_self]
  simpa using setAdd_length_le _ c

theorem vmConnCount_register_ne (c v v' : String) (r : Registry)
    (h : v' ≠ v) :
    vmConnCount (registerConn c v r) v' = vmConnCount r v' := by
  unfold vmConnCount registerConn
  rw [mapGet_mapSet_ne _ _ _ _ h]

theorem eq_singleton_of_mem_len_le_one {α : Type} (l : List α) (x : α)
    (h₁ : l.length ≤ 1) (h₂ : x ∈ l) : l = [x] := by
  cases l with
  | nil => cases h₂
  | cons a t =>
    cases t with
    | nil =>
      rw [List.mem_singleton] at h₂
      rw [h₂]
    | cons b t₂ => simp at h₁

theorem filter_ne_singleton {α : Type} [DecidableEq α] (x : α) :
    ([x].filter (fun p => p ≠ x)) = [] := by simp

theorem strongInv_step (cfg : CapConfig) (s : AdmState) (e : AdmEvent)
    (hseq : seqGuard s e = true)
    (h : StrongInv cfg s) : StrongInv cfg (admStep cfg s e) := by
  obtain ⟨h₁, h₂, h₃, h₄⟩ := h
  cases e with
  | arrive v =>
    have hinf : s.inflight = [] := by
      simpa [seqGuard, List.isEmpty_iff] using hseq
    cases hadm : admitCheck cfg s.registry v with
    | rejectedGlobal acts =>
      simp only [admStep, hadm]
      exact ⟨h₁, h₂, h₃, h₄⟩
    | rejectedPerVm acts =>
      simp only [admStep, hadm]
      exact ⟨h₁, h₂, h₃, h₄⟩
    | admitted =>
      obtain ⟨hc₁, hc₂⟩ := (admitCheck_admitted_iff cfg s.registry v).mp hadm
      simp only [admStep, hadm]
      refine ⟨h₁, h₂, ?_, ?_⟩
      · rw [hinf]; simp
      · intro _
        refine ⟨hc₁, ?_⟩
        intro p hp
        rw [hinf] at hp
        simp at hp
        rw [hp]
        exact hc₂
  | dialOk c v =>
    by_cases hin : (c, v) ∈ s.inflight
    · simp only [admStep, if_pos hin]
      have hsingle : s.inflight = [(c, v)] :=
        eq_singleton_of_mem_len_le_one _ _ h₃ hin
      obtain ⟨hlt, hall⟩ := h₄ (by rw [hsingle]; simp)
      have hvlt : vmConnCount s.registry v < cfg.maxConnectionsPerVM := by
        simpa using hall (c, v) hin
      unfold StrongInv
      dsimp only
      refine ⟨?_, ?_, ?_, ?_⟩
      · have hreg := register_connections_length_le c v s.registry
        omega
      · intro v'
        by_cases hv : v' = v
        · subst hv
          have hreg := vmConnCount_register_self c v' s.registry
          omega
        · rw [vmConnCount_register_ne c v v' _ hv]
          exact h₂ v'
      · rw [hsingle, filter_ne_singleton]
        simp
      · intro hne
        exfalso
        apply hne
        rw [hsingle, filter_ne_singleton]
    · simp only [admStep, if_neg hin]
      exact ⟨h₁, h₂, h₃, h₄⟩
  | dialFail c v =>
    by_cases hin : (c, v) ∈ s.inflight
    · simp only [admStep, if_pos hin]
      refine ⟨h₁, h₂, ?_, ?_⟩
      · exact le_trans (List.length_filter_le _ _) h₃
      · intro hne
        have hne₀ : s.inflight ≠ [] := by
          intro h₀
          rw [h₀] at hne
          simp at hne
        obtain ⟨hlt, hall⟩ := h₄ hne₀
        exact ⟨hlt, fun p hp => hall p (List.mem_of_mem_filter hp)⟩
    · simp only [admStep, if_neg hin]
      exact ⟨h₁, h₂, h₃, h₄⟩
  | wsClosed c v =>
    simp only [admStep]
    refine ⟨?_, ?_, h₃, ?_⟩
    · exact le_trans (cleanup_connections_length_le c v s.registry) h₁
    · intro v'
      exact le_trans (vmConnCount_cleanup_le c v v' s.registry) (h₂ v')
    · intro hne
      obtain ⟨hlt, hall⟩ := h₄ hne
      refine ⟨lt_of_le_of_lt
        (cleanup_connections_length_le c v s.registry) hlt, ?_⟩
      intro p hp
      exact lt_of_le_of_lt (vmConnCount_cleanup_le c v p.2 s.registry)
        (hall p hp)

theorem strongInv_run (cfg : CapConfig) :
    ∀ (evs : List AdmEvent) (s : AdmState),
      seqRunOk cfg s evs = true → StrongInv cfg s →
      StrongInv cfg (admRun cfg s evs) := by
  intro evs
  induction evs with
  | nil =>
    intro s _ h
    exact h
  | cons e evs ih =>
    intro s hseq h
    simp only [seqRunOk, Bool.and_eq_true] at hseq
    exact ih (admStep cfg s e) hseq.2 (strongInv_step cfg s e hseq.1 h)

theorem strongInv_init (cfg : CapConfig) : StrongInv cfg admInit := by
  refine ⟨?_, ?_, ?_, ?_⟩ <;> simp [admInit, StrongInv, vmConnCount, mapGet]

/-- C4 counterexample: with `maxConnections = 1`, two upgrades that
both pass admission while the first dial is still in flight are both
registered once their dials complete, so a reachable state holds two
registered connections — the claimed invariant
`size(connections) ≤ maxConnections` fails on the code. -/
theorem admission_cap_exceeded_counterexample :
    (admRun ⟨1, 20⟩ admInit
        [AdmEvent.arrive "v", AdmEvent.arrive "v",
         AdmEvent.dialOk "v_1" "v", AdmEvent.dialOk "v_2" "v"]
      ).registry.connections.length = 2 ∧
    ¬ (admRun ⟨1, 20⟩ admInit
        [AdmEvent.arrive "v", AdmEvent.arrive "v",
         AdmEvent.dialOk "v_1" "v", AdmEvent.dialOk "v_2" "v"]
      ).registry.connections.length ≤
        (⟨1, 20⟩ : CapConfig).maxConnections := by
  constructor
  · decide
  · decide

/-- C4 amended: admission checks the global cap first and rejects with
a structured error frame followed by close 1008; the cap invariant
holds at every reachable state of sequential (non-interleaved)
connection handling — interleaved dials can exceed it, as the
counterexample shows. -/
theorem admission_order_rejection_and_seq_invariant :
    (∀ (cfg : CapConfig) (r : Registry) (v : String),
      cfg.maxConnections ≤ r.connections.length →
      admitCheck cfg r v = AdmitDecision.rejectedGlobal
        [SockAction.wsSendText
           "\x7b\"type\":\"error\",\"message\":\"Server is at maximum capacity\"\x7d",
         SockAction.wsCloseCode 1008 "Max connections reached"]) ∧
    (∀ (cfg : CapConfig) (r : Registry) (v : String),
      r.connections.length < cfg.maxConnections →
      cfg.maxConnectionsPerVM ≤ vmConnCount r v →
      admitCheck cfg r v = AdmitDecision.rejectedPerVm
        [SockAction.wsSendText
           "\x7b\"type\":\"error\",\"message\":\"Too many connections for this VM\"\x7d",
         SockAction.wsCloseCode 1008 "Too many connections"]) ∧
    (∀ (cfg : CapConfig) (evs : List AdmEvent),
      seqRunOk cfg admInit evs = true →
      CapInv cfg (admRun cfg admInit evs)) := by
  refine ⟨?_, ?_, ?_⟩
  · intro cfg r v h
    exact admitCheck_global cfg r v h
  · intro cfg r v h₁ h₂
    exact admitCheck_perVm cfg r v h₁ h₂
  · intro cfg evs hseq
    obtain ⟨hc, hv, _, _⟩ :=
      strongInv_run cfg evs admInit hseq (strongInv_init cfg)
    exact ⟨hc, hv⟩

/-- Witness for the amended C4: a full registry rejects globally, a
full VM set rejects per-VM, and a sequential two-event run satisfies
the cap invariant. -/
theorem admission_order_rejection_and_seq_invariant_witness :
    admitCheck ⟨0, 20⟩ ⟨[], []⟩ "v" = AdmitDecision.rejectedGlobal
      [SockAction.wsSendText
         "\x7b\"type\":\"error\",\"message\":\"Server is at maximum capacity\"\x7d",
       SockAction.wsCloseCode 1008 "Max connections reached"] ∧
    admitCheck ⟨5, 0⟩ ⟨[], []⟩ "v" = AdmitDecision.rejectedPerVm
      [SockAction.wsSendText
         "\x7b\"type\":\"error\",\"message\":\"Too many connections for this VM\"\x7d",
       SockAction.wsCloseCode 1008 "Too many connections"] ∧
    CapInv ⟨2, 2⟩ (admRun ⟨2, 2⟩ admInit
      [AdmEvent.arrive "v", AdmEvent.dialOk "v_1" "v"]) := by
  refine ⟨?_, ?_, ?_⟩
  · exact admission_order_rejection_and_seq_invariant.1
      ⟨0, 20⟩ ⟨[], []⟩ "v" (by decide)
  · exact admission_order_rejection_and_seq_invariant.2.1
      ⟨5, 0⟩ ⟨[], []⟩ "v" (by decide) (by decide)
  · exact admission_order_rejection_and_seq_invariant.2.2
      ⟨2, 2⟩ [AdmEvent.arrive "v", AdmEvent.dialOk "v_1" "v"] (by decide)

end NovncProxy
